import Mathlib

/-!
Verification of the interpreter-booking backend (`main.py`, `models.py`) of the
FHIR-Project repository, against its natural-language specification.

The SQLAlchemy data model of `models.py` is embedded as Lean structures; the
database session is embedded as an explicit `DB` state holding the three tables
as lists of rows.  Each FastAPI endpoint that the claims mention becomes a pure
Lean function from a `DB` (plus its request parameters and the current time,
modelled as a `Nat`) to a result together with the post-state; an HTTP error
raised before `db.commit()` leaves the state unchanged, so the error branches
return the input `DB`.  Timestamps are `Nat`s; `datetime.utcnow()` becomes an
explicit `now` argument.
-/

namespace FHIRProject

/-- `RequestStatus` enum of `models.py`. -/
inductive RequestStatus where
  | pending
  | accepted
  | completed
  | cancelled
deriving DecidableEq, Repr

/-- `InterpreterAvailability` enum of `models.py`. -/
inductive InterpreterAvailability where
  | available
  | unavailable
  | busy
deriving DecidableEq, Repr

/-- `DeliveryMethod` enum of `models.py`. -/
inductive DeliveryMethod where
  | onsite
  | telephone
  | telehealth
deriving DecidableEq, Repr

/-- Row of the `interpreter_data` table (`models.py`, class `InterpreterData`). -/
structure InterpreterData where
  id : String
  login_id : String
  name : String
  phone_number : Option String
  email : Option String
  language : String
  gender : Option String
  gender_preference : Option String
  availability_status : InterpreterAvailability
deriving DecidableEq, Repr

/-- Row of the `patient_data` table (`models.py`, class `PatientData`). -/
structure PatientData where
  id : String
  fhir_id : String
  name : String
  location : Option String
  birthdate : Option String
  gender : Option String
  address : Option String
  phone_number : Option String
  email : Option String
  language : String
deriving DecidableEq, Repr

/-- Row of the `interpreter_requests` table (`models.py`, class `InterpreterRequest`). -/
structure InterpreterRequest where
  id : String
  requested_by : String
  patient_id : String
  interpreter_id : Option String
  location_method : String
  delivery_method : DeliveryMethod
  language : String
  status : RequestStatus
  patient_type : Option String
  is_stat : Bool
  duration_minutes : Option String
  request_notes : Option String
  encounter_notes : Option String
  requested_at : Nat
  accepted_at : Option Nat
  completed_at : Option Nat
deriving DecidableEq, Repr

instance {ε α : Type} [DecidableEq ε] [DecidableEq α] : DecidableEq (Except ε α) :=
  fun x y =>
    match x, y with
    | .error e, .error f =>
      if h : e = f then .isTrue (by rw [h])
      else .isFalse (fun hh => h (by injection hh))
    | .error _, .ok _ => .isFalse (fun hh => Except.noConfusion hh)
    | .ok _, .error _ => .isFalse (fun hh => Except.noConfusion hh)
    | .ok a, .ok b =>
      if h : a = b then .isTrue (by rw [h])
      else .isFalse (fun hh => h (by injection hh))

/-- The three tables touched by the matching engine, i.e. the record store
behind the SQLAlchemy session of `main.py`. -/
structure DB where
  patients : List PatientData
  interpreters : List InterpreterData
  requests : List InterpreterRequest
deriving DecidableEq, Repr

/-- The `HTTPException`s raised by the endpoints of `main.py` that the claims
mention, keyed by their detail message. -/
inductive ApiError where
  /-- 404 "Interpreter profile not found". -/
  | interpreterNotFound
  /-- 400 "You must be available to accept requests". -/
  | notAvailable
  /-- 404 "Request not found". -/
  | requestNotFound
  /-- 400 "Request is not pending". -/
  | requestNotPending
  /-- 400 "Request language does not match your language". -/
  | languageMismatch
  /-- 404 "Request not found or not assigned to you" (in `complete_request`). -/
  | notYourRequest
  /-- 400 "Request is not in accepted status". -/
  | requestNotAccepted
  /-- 404 "Patient not found" (in `create_request`). -/
  | patientNotFound
  /-- 404 "Patient not found in FHIR server" (in `sync_patient_from_fhir`). -/
  | patientNotFoundInFhir
deriving DecidableEq, Repr

/-- An SQLAlchemy row update: the session mutates the fetched row in place and
`db.commit()` persists it; on the list model this rewrites every row matching
the row's key predicate. -/
def updateWhere (p : α → Bool) (f : α → α) (l : List α) : List α :=
  l.map fun x => if p x then f x else x

/-- `POST /api/interpreter/requests/\x7brequest_id\x7d/accept` (`main.py`,
`accept_request`).  The caller is identified by the login id `userId`
(`current_user.id`); the interpreter profile is fetched by `login_id`, then the
availability, existence, status and language checks run in the order of the
source, and on success the request row and the interpreter row are mutated and
committed. -/
def accept_request (db : DB) (userId : String) (requestId : String) (now : Nat) :
    Except ApiError InterpreterRequest × DB :=
  match db.interpreters.find? (fun i => i.login_id == userId) with
  | none => (.error .interpreterNotFound, db)
  | some interp =>
    if interp.availability_status ≠ InterpreterAvailability.available then
      (.error .notAvailable, db)
    else
      match db.requests.find? (fun r => r.id == requestId) with
      | none => (.error .requestNotFound, db)
      | some req =>
        if req.status ≠ RequestStatus.pending then
          (.error .requestNotPending, db)
        else if req.language ≠ interp.language then
          (.error .languageMismatch, db)
        else
          let req' : InterpreterRequest :=
            { req with
              interpreter_id := some interp.id
              status := RequestStatus.accepted
              accepted_at := some now }
          let interp' : InterpreterData :=
            { interp with availability_status := InterpreterAvailability.busy }
          (.ok req',
           { db with
             requests := updateWhere (fun r => r.id == requestId) (fun _ => req') db.requests
             interpreters :=
               updateWhere (fun i => i.login_id == userId) (fun _ => interp') db.interpreters })

/-- The effect of `if updates.encounter_notes: request.encounter_notes =
updates.encounter_notes` (`main.py`, `complete_request`): Python truthiness
means `None` and the empty string both leave the stored notes unchanged. -/
def mergedNotes (notes : Option String) (old : Option String) : Option String :=
  match notes with
  | some n => if n = "" then old else some n
  | none => old

/-- `POST /api/interpreter/requests/\x7brequest_id\x7d/complete` (`main.py`,
`complete_request`).  The request row is fetched by id *and*
`interpreter_id == interpreter.id` in one query, so a request that exists but
is assigned to someone else (or to no one) yields the same 404 as a missing
request.  `if updates.encounter_notes:` is Python truthiness: `None` and the
empty string both leave the stored notes unchanged. -/
def complete_request (db : DB) (userId : String) (requestId : String)
    (encounterNotes : Option String) (now : Nat) :
    Except ApiError InterpreterRequest × DB :=
  match db.interpreters.find? (fun i => i.login_id == userId) with
  | none => (.error .interpreterNotFound, db)
  | some interp =>
    match db.requests.find?
        (fun r => r.id == requestId && r.interpreter_id == some interp.id) with
    | none => (.error .notYourRequest, db)
    | some req =>
      if req.status ≠ RequestStatus.accepted then
        (.error .requestNotAccepted, db)
      else
        let req' : InterpreterRequest :=
          { req with
            status := RequestStatus.completed
            completed_at := some now
            encounter_notes := mergedNotes encounterNotes req.encounter_notes }
        let interp' : InterpreterData :=
          { interp with availability_status := InterpreterAvailability.available }
        (.ok req',
         { db with
           requests := updateWhere (fun r => r.id == requestId) (fun _ => req') db.requests
           interpreters :=
             updateWhere (fun i => i.login_id == userId) (fun _ => interp') db.interpreters })

/-- Body of `POST /api/requests` (`schemas.py`, class `RequestCreate`). -/
structure RequestCreate where
  patient_id : String
  location_method : String
  delivery_method : DeliveryMethod
  language : String
  patient_type : Option String
  is_stat : Bool
  duration_minutes : Option String
  request_notes : Option String
deriving DecidableEq, Repr

/-- `POST /api/requests` (`main.py`, `create_request`).  Verifies the patient
exists, then inserts a new `InterpreterRequest` row; the column defaults of
`models.py` give `status = PENDING`, `interpreter_id = NULL`,
`requested_at = now`.  `newId` stands for the generated uuid primary key. -/
def create_request (db : DB) (userId : String) (rc : RequestCreate)
    (newId : String) (now : Nat) :
    Except ApiError InterpreterRequest × DB :=
  match db.patients.find? (fun p => p.id == rc.patient_id) with
  | none => (.error .patientNotFound, db)
  | some _ =>
    let req : InterpreterRequest :=
      { id := newId
        requested_by := userId
        patient_id := rc.patient_id
        interpreter_id := none
        location_method := rc.location_method
        delivery_method := rc.delivery_method
        language := rc.language
        status := RequestStatus.pending
        patient_type := rc.patient_type
        is_stat := rc.is_stat
        duration_minutes := rc.duration_minutes
        request_notes := rc.request_notes
        encounter_notes := none
        requested_at := now
        accepted_at := none
        completed_at := none }
    (.ok req, { db with requests := db.requests ++ [req] })

/-- The queue order of `get_pending_requests_for_interpreter` (`main.py`):
`ORDER BY is_stat DESC, requested_at ASC` — `a` may come before `b` iff `a` is
STAT and `b` is not, or they agree on the urgency flag and `a` was requested no
later than `b`. -/
def pendingBefore (a b : InterpreterRequest) : Prop :=
  (a.is_stat = true ∧ b.is_stat = false) ∨
    (a.is_stat = b.is_stat ∧ a.requested_at ≤ b.requested_at)

instance : DecidableRel pendingBefore := fun a b => by
  unfold pendingBefore; infer_instance

instance : IsTotal InterpreterRequest pendingBefore := by
  constructor
  intro a b
  unfold pendingBefore
  cases ha : a.is_stat <;> cases hb : b.is_stat <;>
    rcases Nat.le_total a.requested_at b.requested_at with h | h <;> tauto

instance : IsTrans InterpreterRequest pendingBefore := by
  constructor
  intro a b c hab hbc
  unfold pendingBefore at *
  cases ha : a.is_stat <;> cases hb : b.is_stat <;> cases hc : c.is_stat <;>
    simp_all <;> omega

/-- Query of `GET /api/interpreter/requests/pending` (`main.py`,
`get_pending_requests_for_interpreter`), for a given language: the `PENDING`
requests whose `language` column equals `lang`, sorted by
`is_stat DESC, requested_at ASC`. -/
def listPending (db : DB) (lang : String) : List InterpreterRequest :=
  List.insertionSort pendingBefore
    (db.requests.filter fun r =>
      r.language == lang && r.status == RequestStatus.pending)

/-- A FHIR `Patient` resource as consumed by `fhir_client.parse_patient_resource`:
the fields that function extracts from the JSON resource (`id`, assembled name,
gender, birthDate, phone/email telecoms, assembled address, communication
language).  The JSON traversal itself is pure data plumbing and is abstracted
into these already-extracted fields. -/
structure FhirPatient where
  id : String
  name : String
  gender : Option String
  birthdate : Option String
  phone_number : Option String
  email : Option String
  address : Option String
  language : String
deriving DecidableEq, Repr

/-- `fhir_client.parse_patient_resource` followed by `PatientData(**patient_data)`
(`main.py`, `sync_patient_from_fhir`): builds the local row from the resource;
`fhir_id` is the resource's `id`, the local primary key `newId` is the
generated uuid, and `location` is not among the parsed fields so it stays
`NULL`. -/
def parse_patient_resource (fp : FhirPatient) (newId : String) : PatientData :=
  { id := newId
    fhir_id := fp.id
    name := fp.name
    location := none
    birthdate := fp.birthdate
    gender := fp.gender
    address := fp.address
    phone_number := fp.phone_number
    email := fp.email
    language := fp.language }

/-- `POST /api/patients/sync/\x7bfhir_id\x7d` (`main.py`,
`sync_patient_from_fhir`).  If a local row with that `fhir_id` already exists
it is returned untouched; otherwise the external FHIR server (modelled as the
lookup function `fhirGet`) is asked for the resource, a missing resource is a
404, and a found resource is parsed and inserted. -/
def sync_patient_from_fhir (db : DB) (fhirId : String)
    (fhirGet : String → Option FhirPatient) (newId : String) :
    Except ApiError PatientData × DB :=
  match db.patients.find? (fun p => p.fhir_id == fhirId) with
  | some existing => (.ok existing, db)
  | none =>
    match fhirGet fhirId with
    | none => (.error .patientNotFoundInFhir, db)
    | some fp =>
      let newPatient := parse_patient_resource fp newId
      (.ok newPatient, { db with patients := db.patients ++ [newPatient] })

/-- The row inserted by `create_request` (`main.py`): the `RequestCreate`
fields plus `requested_by = current_user.id` and the `models.py` column
defaults. -/
def newRequestRow (userId : String) (rc : RequestCreate) (newId : String)
    (now : Nat) : InterpreterRequest :=
  { id := newId
    requested_by := userId
    patient_id := rc.patient_id
    interpreter_id := none
    location_method := rc.location_method
    delivery_method := rc.delivery_method
    language := rc.language
    status := RequestStatus.pending
    patient_type := rc.patient_type
    is_stat := rc.is_stat
    duration_minutes := rc.duration_minutes
    request_notes := rc.request_notes
    encounter_notes := none
    requested_at := now
    accepted_at := none
    completed_at := none }

/-! ### Helper lemmas about `find?` and `updateWhere` -/

theorem updateWhere_cons {α : Type} (p : α → Bool) (f : α → α) (x : α) (xs : List α) :
    updateWhere p f (x :: xs) = (if p x then f x else x) :: updateWhere p f xs := rfl

theorem find?_updateWhere_self {α : Type} {p : α → Bool} (f : α → α) {l : List α} {a : α}
    (h : l.find? p = some a) (hf : p (f a) = true) :
    (updateWhere p f l).find? p = some (f a) := by
  induction l with
  | nil => simp at h
  | cons x xs ih =>
    rw [updateWhere_cons]
    cases hx : p x with
    | true =>
      rw [List.find?_cons_of_pos _ hx] at h
      cases h
      rw [if_pos rfl, List.find?_cons_of_pos _ hf]
    | false =>
      rw [List.find?_cons_of_neg _ (by simp [hx])] at h
      rw [if_neg (by simp), List.find?_cons_of_neg _ (by simp [hx])]
      exact ih h

theorem find?_updateWhere_other {α : Type} {p q : α → Bool} {f : α → α} {l : List α}
    (hq : ∀ x, p x = true → q x = false ∧ q (f x) = false) :
    (updateWhere p f l).find? q = l.find? q := by
  induction l with
  | nil => rfl
  | cons x xs ih =>
    rw [updateWhere_cons]
    cases hx : p x with
    | true =>
      obtain ⟨h1, h2⟩ := hq x hx
      rw [if_pos rfl, List.find?_cons_of_neg _ (by simp [h2]),
        List.find?_cons_of_neg _ (by simp [h1])]
      exact ih
    | false =>
      rw [if_neg (by simp)]
      cases hqx : q x with
      | true =>
        rw [List.find?_cons_of_pos _ hqx, List.find?_cons_of_pos _ hqx]
      | false =>
        rw [List.find?_cons_of_neg _ (by simp [hqx]),
          List.find?_cons_of_neg _ (by simp [hqx])]
        exact ih

/-! ### Case equations for the endpoint functions -/

theorem accept_eq_notAvailable {db : DB} {uid rid : String} {now : Nat}
    {interp : InterpreterData}
    (hi : db.interpreters.find? (fun i => i.login_id == uid) = some interp)
    (hav : interp.availability_status ≠ InterpreterAvailability.available) :
    accept_request db uid rid now = (.error .notAvailable, db) := by
  simp [accept_request, hi, hav]

theorem accept_eq_requestNotFound {db : DB} {uid rid : String} {now : Nat}
    {interp : InterpreterData}
    (hi : db.interpreters.find? (fun i => i.login_id == uid) = some interp)
    (hav : interp.availability_status = InterpreterAvailability.available)
    (hr : db.requests.find? (fun r => r.id == rid) = none) :
    accept_request db uid rid now = (.error .requestNotFound, db) := by
  simp [accept_request, hi, hav, hr]

theorem accept_eq_requestNotPending {db : DB} {uid rid : String} {now : Nat}
    {interp : InterpreterData} {req : InterpreterRequest}
    (hi : db.interpreters.find? (fun i => i.login_id == uid) = some interp)
    (hav : interp.availability_status = InterpreterAvailability.available)
    (hr : db.requests.find? (fun r => r.id == rid) = some req)
    (hs : req.status ≠ RequestStatus.pending) :
    accept_request db uid rid now = (.error .requestNotPending, db) := by
  simp [accept_request, hi, hav, hr, hs]

theorem accept_eq_languageMismatch {db : DB} {uid rid : String} {now : Nat}
    {interp : InterpreterData} {req : InterpreterRequest}
    (hi : db.interpreters.find? (fun i => i.login_id == uid) = some interp)
    (hav : interp.availability_status = InterpreterAvailability.available)
    (hr : db.requests.find? (fun r => r.id == rid) = some req)
    (hs : req.status = RequestStatus.pending)
    (hl : req.language ≠ interp.language) :
    accept_request db uid rid now = (.error .languageMismatch, db) := by
  simp [accept_request, hi, hav, hr, hs, hl]

theorem accept_eq_ok {db : DB} {uid rid : String} {now : Nat}
    {interp : InterpreterData} {req : InterpreterRequest}
    (hi : db.interpreters.find? (fun i => i.login_id == uid) = some interp)
    (hav : interp.availability_status = InterpreterAvailability.available)
    (hr : db.requests.find? (fun r => r.id == rid) = some req)
    (hs : req.status = RequestStatus.pending)
    (hl : req.language = interp.language) :
    accept_request db uid rid now =
      (.ok { req with
              interpreter_id := some interp.id
              status := RequestStatus.accepted
              accepted_at := some now },
       { db with
         requests := updateWhere (fun r => r.id == rid)
           (fun _ => { req with
                       interpreter_id := some interp.id
                       status := RequestStatus.accepted
                       accepted_at := some now }) db.requests
         interpreters := updateWhere (fun i => i.login_id == uid)
           (fun _ => { interp with
                       availability_status := InterpreterAvailability.busy })
           db.interpreters }) := by
  simp [accept_request, hi, hav, hr, hs, hl]

theorem complete_eq_notYourRequest {db : DB} {uid rid : String}
    {notes : Option String} {now : Nat} {interp : InterpreterData}
    (hi : db.interpreters.find? (fun i => i.login_id == uid) = some interp)
    (hr : db.requests.find?
        (fun r => r.id == rid && r.interpreter_id == some interp.id) = none) :
    complete_request db uid rid notes now = (.error .notYourRequest, db) := by
  simp [complete_request, hi, hr]

theorem complete_eq_requestNotAccepted {db : DB} {uid rid : String}
    {notes : Option String} {now : Nat} {interp : InterpreterData}
    {req : InterpreterRequest}
    (hi : db.interpreters.find? (fun i => i.login_id == uid) = some interp)
    (hr : db.requests.find?
        (fun r => r.id == rid && r.interpreter_id == some interp.id) = some req)
    (hs : req.status ≠ RequestStatus.accepted) :
    complete_request db uid rid notes now = (.error .requestNotAccepted, db) := by
  simp [complete_request, hi, hr, hs]

theorem complete_eq_ok {db : DB} {uid rid : String}
    {notes : Option String} {now : Nat} {interp : InterpreterData}
    {req : InterpreterRequest}
    (hi : db.interpreters.find? (fun i => i.login_id == uid) = some interp)
    (hr : db.requests.find?
        (fun r => r.id == rid && r.interpreter_id == some interp.id) = some req)
    (hs : req.status = RequestStatus.accepted) :
    complete_request db uid rid notes now =
      (.ok { req with
              status := RequestStatus.completed
              completed_at := some now
              encounter_notes := mergedNotes notes req.encounter_notes },
       { db with
         requests := updateWhere (fun r => r.id == rid)
           (fun _ => { req with
                       status := RequestStatus.completed
                       completed_at := some now
                       encounter_notes := mergedNotes notes req.encounter_notes })
           db.requests
         interpreters := updateWhere (fun i => i.login_id == uid)
           (fun _ => { interp with
                       availability_status := InterpreterAvailability.available })
           db.interpreters }) := by
  simp [complete_request, hi, hr, hs]

theorem create_eq_patientNotFound {db : DB} {uid : String} {rc : RequestCreate}
    {newId : String} {now : Nat}
    (hp : db.patients.find? (fun p => p.id == rc.patient_id) = none) :
    create_request db uid rc newId now = (.error .patientNotFound, db) := by
  simp [create_request, hp]

theorem create_eq_ok {db : DB} {uid : String} {rc : RequestCreate}
    {newId : String} {now : Nat} {pat : PatientData}
    (hp : db.patients.find? (fun p => p.id == rc.patient_id) = some pat) :
    create_request db uid rc newId now =
      (.ok (newRequestRow uid rc newId now),
       { db with requests := db.requests ++ [newRequestRow uid rc newId now] }) := by
  simp [create_request, newRequestRow, hp]

theorem sync_eq_existing {db : DB} {fhirId : String}
    {fhirGet : String → Option FhirPatient} {newId : String} {p : PatientData}
    (h : db.patients.find? (fun q => q.fhir_id == fhirId) = some p) :
    sync_patient_from_fhir db fhirId fhirGet newId = (.ok p, db) := by
  simp [sync_patient_from_fhir, h]

theorem sync_eq_fhirMissing {db : DB} {fhirId : String}
    {fhirGet : String → Option FhirPatient} {newId : String}
    (h : db.patients.find? (fun q => q.fhir_id == fhirId) = none)
    (hg : fhirGet fhirId = none) :
    sync_patient_from_fhir db fhirId fhirGet newId =
      (.error .patientNotFoundInFhir, db) := by
  simp [sync_patient_from_fhir, h, hg]

theorem sync_eq_created {db : DB} {fhirId : String}
    {fhirGet : String → Option FhirPatient} {newId : String} {fp : FhirPatient}
    (h : db.patients.find? (fun q => q.fhir_id == fhirId) = none)
    (hg : fhirGet fhirId = some fp) :
    sync_patient_from_fhir db fhirId fhirGet newId =
      (.ok (parse_patient_resource fp newId),
       { db with patients := db.patients ++ [parse_patient_resource fp newId] }) := by
  simp [sync_patient_from_fhir, h, hg]

theorem accept_eq_noInterp {db : DB} {uid rid : String} {now : Nat}
    (hi : db.interpreters.find? (fun i => i.login_id == uid) = none) :
    accept_request db uid rid now = (.error .interpreterNotFound, db) := by
  simp [accept_request, hi]

theorem complete_eq_noInterp {db : DB} {uid rid : String}
    {notes : Option String} {now : Nat}
    (hi : db.interpreters.find? (fun i => i.login_id == uid) = none) :
    complete_request db uid rid notes now = (.error .interpreterNotFound, db) := by
  simp [complete_request, hi]

/-- Inversion of a successful `accept_request`: the checks must all have
passed and the result is exactly the committed mutation. -/
theorem accept_ok_inversion {db : DB} {uid rid : String} {now : Nat}
    {interp : InterpreterData} {r : InterpreterRequest} {db' : DB}
    (hi : db.interpreters.find? (fun i => i.login_id == uid) = some interp)
    (hok : accept_request db uid rid now = (Except.ok r, db')) :
    interp.availability_status = InterpreterAvailability.available ∧
    ∃ req, db.requests.find? (fun x => x.id == rid) = some req ∧
      req.status = RequestStatus.pending ∧ req.language = interp.language ∧
      r = { req with
            interpreter_id := some interp.id
            status := RequestStatus.accepted
            accepted_at := some now } ∧
      db' = { db with
              requests := updateWhere (fun x => x.id == rid) (fun _ => r) db.requests
              interpreters := updateWhere (fun i => i.login_id == uid)
                (fun _ => { interp with
                            availability_status := InterpreterAvailability.busy })
                db.interpreters } := by
  by_cases hav : interp.availability_status = InterpreterAvailability.available
  · cases hr : db.requests.find? (fun x => x.id == rid) with
    | none => rw [accept_eq_requestNotFound hi hav hr] at hok; simp at hok
    | some req =>
      by_cases hs : req.status = RequestStatus.pending
      · by_cases hl : req.language = interp.language
        · rw [accept_eq_ok hi hav hr hs hl] at hok
          simp only [Prod.mk.injEq, Except.ok.injEq] at hok
          obtain ⟨h1, h2⟩ := hok
          refine ⟨hav, req, rfl, hs, hl, h1.symm, ?_⟩
          rw [← h1, ← h2]
        · rw [accept_eq_languageMismatch hi hav hr hs hl] at hok; simp at hok
      · rw [accept_eq_requestNotPending hi hav hr hs] at hok; simp at hok
  · rw [accept_eq_notAvailable hi hav] at hok; simp at hok

/-- Inversion of a successful `complete_request`. -/
theorem complete_ok_inversion {db : DB} {uid rid : String}
    {notes : Option String} {now : Nat}
    {interp : InterpreterData} {r : InterpreterRequest} {db' : DB}
    (hi : db.interpreters.find? (fun i => i.login_id == uid) = some interp)
    (hok : complete_request db uid rid notes now = (Except.ok r, db')) :
    ∃ req, db.requests.find?
        (fun x => x.id == rid && x.interpreter_id == some interp.id) = some req ∧
      req.status = RequestStatus.accepted ∧
      r = { req with
            status := RequestStatus.completed
            completed_at := some now
            encounter_notes := mergedNotes notes req.encounter_notes } ∧
      db' = { db with
              requests := updateWhere (fun x => x.id == rid) (fun _ => r) db.requests
              interpreters := updateWhere (fun i => i.login_id == uid)
                (fun _ => { interp with
                            availability_status := InterpreterAvailability.available })
                db.interpreters } := by
  cases hr : db.requests.find?
      (fun x => x.id == rid && x.interpreter_id == some interp.id) with
  | none => rw [complete_eq_notYourRequest hi hr] at hok; simp at hok
  | some req =>
    by_cases hs : req.status = RequestStatus.accepted
    · rw [complete_eq_ok hi hr hs] at hok
      simp only [Prod.mk.injEq, Except.ok.injEq] at hok
      obtain ⟨h1, h2⟩ := hok
      refine ⟨req, rfl, hs, h1.symm, ?_⟩
      rw [← h1, ← h2]
    · rw [complete_eq_requestNotAccepted hi hr hs] at hok; simp at hok

/-- The request invariant of the spec: `interpreter_id` is non-null exactly on
the ACCEPTED and COMPLETED statuses. -/
def reqInvariant (r : InterpreterRequest) : Prop :=
  r.interpreter_id ≠ none ↔
    (r.status = RequestStatus.accepted ∨ r.status = RequestStatus.completed)

instance : DecidablePred reqInvariant := fun r => by
  unfold reqInvariant; infer_instance

/-- Every request row of the store satisfies `reqInvariant`. -/
def dbInvariant (db : DB) : Prop := ∀ r ∈ db.requests, reqInvariant r

instance (db : DB) : Decidable (dbInvariant db) :=
  List.decidableBAll reqInvariant db.requests

/-! ### Concrete data used by the witnesses and the queue-ordering example -/

/-- A patient row cached from the FHIR server. -/
def pat1 : PatientData :=
  { id := "P1", fhir_id := "F1", name := "Pat One", location := none,
    birthdate := none, gender := none, address := none, phone_number := none,
    email := none, language := "Arabic" }

/-- An AVAILABLE Arabic interpreter. -/
def int1 : InterpreterData :=
  { id := "I1", login_id := "U1", name := "Amal", phone_number := none,
    email := none, language := "Arabic", gender := none,
    gender_preference := none,
    availability_status := InterpreterAvailability.available }

/-- A second AVAILABLE Arabic interpreter. -/
def int2 : InterpreterData :=
  { int1 with id := "I2", login_id := "U2", name := "Basim" }

/-- A BUSY Arabic interpreter. -/
def int3 : InterpreterData :=
  { int1 with
    id := "I3", login_id := "U3", name := "Chen",
    availability_status := InterpreterAvailability.busy }

/-- An AVAILABLE Spanish interpreter. -/
def int4 : InterpreterData :=
  { int1 with id := "I4", login_id := "U4", name := "Dora", language := "Spanish" }

/-- R1 of the spec's queue example: not STAT, requested at 10:00 (600 min). -/
def reqA : InterpreterRequest :=
  { id := "R1", requested_by := "S1", patient_id := "P1", interpreter_id := none,
    location_method := "ward", delivery_method := DeliveryMethod.onsite,
    language := "Arabic", status := RequestStatus.pending, patient_type := none,
    is_stat := false, duration_minutes := none, request_notes := none,
    encounter_notes := none, requested_at := 600, accepted_at := none,
    completed_at := none }

/-- R2 of the spec's queue example: STAT, requested at 10:05 (605 min). -/
def reqB : InterpreterRequest :=
  { reqA with id := "R2", is_stat := true, requested_at := 605 }

/-- R3 of the spec's queue example: not STAT, requested at 09:50 (590 min). -/
def reqC : InterpreterRequest :=
  { reqA with id := "R3", requested_at := 590 }

/-- A request already ACCEPTED by interpreter I1. -/
def reqD : InterpreterRequest :=
  { reqA with
    id := "R4", status := RequestStatus.accepted,
    interpreter_id := some "I1", accepted_at := some 610 }

/-- A request already COMPLETED by interpreter I1. -/
def reqE : InterpreterRequest :=
  { reqA with
    id := "R5", status := RequestStatus.completed,
    interpreter_id := some "I1", accepted_at := some 620, completed_at := some 640 }

/-- A request ACCEPTED by the BUSY interpreter I3. -/
def reqF : InterpreterRequest :=
  { reqA with
    id := "R6", status := RequestStatus.accepted,
    interpreter_id := some "I3", accepted_at := some 615 }

/-- The concrete store all witnesses run against. -/
def exDB : DB :=
  { patients := [pat1],
    interpreters := [int1, int2, int3, int4],
    requests := [reqA, reqB, reqC, reqD, reqE, reqF] }

/-- The row produced by U1 accepting R1 at time 5 on `exDB`. -/
def exAcceptedRow : InterpreterRequest :=
  { reqA with
    interpreter_id := some "I1", status := RequestStatus.accepted,
    accepted_at := some 5 }

/-- The store after U1 accepts R1 at time 5. -/
def exDBAfterAccept : DB := (accept_request exDB "U1" "R1" 5).2

/-- The row produced by U3 completing R6 at time 9 with no notes. -/
def exCompletedRow : InterpreterRequest :=
  { reqF with status := RequestStatus.completed, completed_at := some 9 }

/-- The store after U3 completes R6 at time 9. -/
def exDBAfterComplete : DB := (complete_request exDB "U3" "R6" none 9).2

/-- A request-creation body referencing a nonexistent patient id. -/
def rcBad : RequestCreate :=
  { patient_id := "NOPE", location_method := "ward",
    delivery_method := DeliveryMethod.onsite, language := "Arabic",
    patient_type := none, is_stat := false, duration_minutes := none,
    request_notes := none }

/-- An external FHIR server with no patients at all. -/
def noFhirServer : String → Option FhirPatient := fun _ => none

theorem forall_mem_updateWhere {α : Type} {P : α → Prop} {p : α → Bool} {f : α → α}
    {l : List α} (hl : ∀ x ∈ l, P x) (hf : ∀ x ∈ l, p x = true → P (f x)) :
    ∀ x ∈ updateWhere p f l, P x := by
  intro x hx
  rcases List.mem_map.mp hx with ⟨y, hy, hxy⟩
  by_cases hpy : p y = true
  · rw [← hxy, if_pos hpy]
    exact hf y hy hpy
  · rw [← hxy, if_neg hpy]
    exact hl y hy

/-! ### Claim theorems -/

/-- C1: an Accept call by an existing interpreter succeeds iff the interpreter
is AVAILABLE, the request exists, is PENDING, and matches the interpreter's
language; on success the request becomes ACCEPTED with `interpreter_id` and
`accepted_at` set and the interpreter becomes BUSY; each failed precondition
yields its error (`notAvailable`, `requestNotFound`, `requestNotPending`,
`languageMismatch`). -/
theorem accept_request_full_spec (db : DB) (uid rid : String) (now : Nat)
    (interp : InterpreterData)
    (hi : db.interpreters.find? (fun i => i.login_id == uid) = some interp) :
    ((∃ r db', accept_request db uid rid now = (Except.ok r, db')) ↔
      (interp.availability_status = InterpreterAvailability.available ∧
        ∃ req, db.requests.find? (fun x => x.id == rid) = some req ∧
          req.status = RequestStatus.pending ∧ req.language = interp.language)) ∧
    (interp.availability_status ≠ InterpreterAvailability.available →
      accept_request db uid rid now = (Except.error ApiError.notAvailable, db)) ∧
    (interp.availability_status = InterpreterAvailability.available →
      db.requests.find? (fun x => x.id == rid) = none →
      accept_request db uid rid now = (Except.error ApiError.requestNotFound, db)) ∧
    (∀ req, interp.availability_status = InterpreterAvailability.available →
      db.requests.find? (fun x => x.id == rid) = some req →
      req.status ≠ RequestStatus.pending →
      accept_request db uid rid now = (Except.error ApiError.requestNotPending, db)) ∧
    (∀ req, interp.availability_status = InterpreterAvailability.available →
      db.requests.find? (fun x => x.id == rid) = some req →
      req.status = RequestStatus.pending → req.language ≠ interp.language →
      accept_request db uid rid now = (Except.error ApiError.languageMismatch, db)) ∧
    (∀ r db', accept_request db uid rid now = (Except.ok r, db') →
      r.status = RequestStatus.accepted ∧ r.interpreter_id = some interp.id ∧
      r.accepted_at = some now ∧
      db'.requests.find? (fun x => x.id == rid) = some r ∧
      (db'.interpreters.find? (fun i => i.login_id == uid)).map
        InterpreterData.availability_status = some InterpreterAvailability.busy) := by
  refine ⟨⟨?_, ?_⟩, fun hav => accept_eq_notAvailable hi hav,
    fun hav hr => accept_eq_requestNotFound hi hav hr,
    fun req hav hr hs => accept_eq_requestNotPending hi hav hr hs,
    fun req hav hr hs hl => accept_eq_languageMismatch hi hav hr hs hl, ?_⟩
  · rintro ⟨r, db', hok⟩
    obtain ⟨hav, req, hr, hs, hl, -, -⟩ := accept_ok_inversion hi hok
    exact ⟨hav, req, hr, hs, hl⟩
  · rintro ⟨hav, req, hr, hs, hl⟩
    exact ⟨_, _, accept_eq_ok hi hav hr hs hl⟩
  · intro r db' hok
    obtain ⟨hav, req, hr, hs, hl, hreq, hdb⟩ := accept_ok_inversion hi hok
    subst hdb
    have hid := List.find?_some hr
    have hlogin := List.find?_some hi
    refine ⟨by rw [hreq], by rw [hreq], by rw [hreq], ?_, ?_⟩
    · exact find?_updateWhere_self (fun _ => r) hr (by rw [hreq]; exact hid)
    · rw [find?_updateWhere_self
        (fun _ => { interp with availability_status := InterpreterAvailability.busy })
        hi hlogin]
      rfl

/-- C1 witness: on the concrete store, interpreter U1 is found, is AVAILABLE,
and request id R9 does not exist, so Accept returns `requestNotFound` and
leaves the store unchanged. -/
theorem accept_request_full_spec_witness :
    exDB.interpreters.find? (fun i => i.login_id == "U1") = some int1 ∧
    int1.availability_status = InterpreterAvailability.available ∧
    exDB.requests.find? (fun x => x.id == "R9") = none ∧
    accept_request exDB "U1" "R9" 5 = (Except.error ApiError.requestNotFound, exDB) :=
  ⟨by decide, by decide, by decide,
    (accept_request_full_spec exDB "U1" "R9" 5 int1 (by decide)).2.2.1
      (by decide) (by decide)⟩

/-- C6: an AVAILABLE interpreter accepting an existing PENDING request of a
different language gets `languageMismatch` and the store — every request field
and every interpreter's availability — is returned unchanged. -/
theorem accept_language_mismatch_no_change (db : DB) (uid rid : String)
    (now : Nat) (interp : InterpreterData) (req : InterpreterRequest)
    (hi : db.interpreters.find? (fun i => i.login_id == uid) = some interp)
    (hav : interp.availability_status = InterpreterAvailability.available)
    (hr : db.requests.find? (fun x => x.id == rid) = some req)
    (hs : req.status = RequestStatus.pending)
    (hl : req.language ≠ interp.language) :
    accept_request db uid rid now = (Except.error ApiError.languageMismatch, db) :=
  accept_eq_languageMismatch hi hav hr hs hl

/-- C6 witness: Spanish interpreter U4 accepting the Arabic PENDING request R1
on the concrete store. -/
theorem accept_language_mismatch_no_change_witness :
    exDB.interpreters.find? (fun i => i.login_id == "U4") = some int4 ∧
    int4.availability_status = InterpreterAvailability.available ∧
    exDB.requests.find? (fun x => x.id == "R1") = some reqA ∧
    reqA.status = RequestStatus.pending ∧
    reqA.language ≠ int4.language ∧
    accept_request exDB "U4" "R1" 5 = (Except.error ApiError.languageMismatch, exDB) :=
  ⟨by decide, by decide, by decide, by decide, by decide,
    accept_language_mismatch_no_change exDB "U4" "R1" 5 int4 reqA
      (by decide) (by decide) (by decide) (by decide) (by decide)⟩

/-- C10: the availability check precedes the request lookup, so an existing
interpreter that is not AVAILABLE always gets `notAvailable`, whatever the
request id refers to. -/
theorem accept_checks_availability_first (db : DB) (uid : String) (now : Nat)
    (interp : InterpreterData)
    (hi : db.interpreters.find? (fun i => i.login_id == uid) = some interp)
    (hav : interp.availability_status ≠ InterpreterAvailability.available) :
    ∀ rid, accept_request db uid rid now = (Except.error ApiError.notAvailable, db) :=
  fun _ => accept_eq_notAvailable hi hav

/-- C10 witness: BUSY interpreter U3 accepting the nonexistent request id R77
still gets `notAvailable`. -/
theorem accept_checks_availability_first_witness :
    exDB.interpreters.find? (fun i => i.login_id == "U3") = some int3 ∧
    int3.availability_status ≠ InterpreterAvailability.available ∧
    accept_request exDB "U3" "R77" 5 = (Except.error ApiError.notAvailable, exDB) :=
  ⟨by decide, by decide,
    accept_checks_availability_first exDB "U3" 5 int3 (by decide) (by decide) "R77"⟩

/-- Modelled from the spec: the transactional record store configured in
`database.py` — a file the sources do not include — must, per the spec, run
each Accept as one atomic read-check-write with serializable isolation, so
two concurrent Accept calls on the same store execute as one call after the
other.  `acceptTwice` is that serialization with caller 1 committing first:
its value is (caller 1's response, caller 2's response, final store). -/
def acceptTwice (db : DB) (uid1 uid2 rid : String) (now1 now2 : Nat) :
    (Except ApiError InterpreterRequest × Except ApiError InterpreterRequest) × DB :=
  (((accept_request db uid1 rid now1).1,
    (accept_request (accept_request db uid1 rid now1).2 uid2 rid now2).1),
   (accept_request (accept_request db uid1 rid now1).2 uid2 rid now2).2)

/-- C2: when two distinct AVAILABLE interpreters race to accept the same
PENDING request, the serialization `acceptTwice` makes exactly one of them
win: the first call succeeds and assigns the request to the first interpreter
only; the second call returns `requestNotPending`; the final store is exactly
the winner's commit (the loser changed nothing), and the loser's interpreter
row — in particular its availability — is exactly as before. -/
theorem accept_race_exactly_one (db : DB) (uid1 uid2 rid : String)
    (now1 now2 : Nat) (i1 i2 : InterpreterData) (req : InterpreterRequest)
    (hne : uid1 ≠ uid2)
    (h1 : db.interpreters.find? (fun i => i.login_id == uid1) = some i1)
    (h2 : db.interpreters.find? (fun i => i.login_id == uid2) = some i2)
    (ha1 : i1.availability_status = InterpreterAvailability.available)
    (ha2 : i2.availability_status = InterpreterAvailability.available)
    (hr : db.requests.find? (fun x => x.id == rid) = some req)
    (hp : req.status = RequestStatus.pending)
    (hl1 : req.language = i1.language) :
    (acceptTwice db uid1 uid2 rid now1 now2).1.1 =
      Except.ok { req with
                  interpreter_id := some i1.id
                  status := RequestStatus.accepted
                  accepted_at := some now1 } ∧
    (acceptTwice db uid1 uid2 rid now1 now2).1.2 =
      Except.error ApiError.requestNotPending ∧
    (acceptTwice db uid1 uid2 rid now1 now2).2 =
      (accept_request db uid1 rid now1).2 ∧
    (acceptTwice db uid1 uid2 rid now1 now2).2.requests.find?
      (fun x => x.id == rid) =
      some { req with
             interpreter_id := some i1.id
             status := RequestStatus.accepted
             accepted_at := some now1 } ∧
    (acceptTwice db uid1 uid2 rid now1 now2).2.interpreters.find?
      (fun i => i.login_id == uid2) = some i2 := by
  have hok := @accept_eq_ok db uid1 rid now1 i1 req h1 ha1 hr hp hl1
  have hlog1 := List.find?_some h1
  have hown1 : i1.login_id = uid1 := by simpa using hlog1
  have hq : ∀ x : InterpreterData, ((x.login_id == uid1) = true) →
      ((x.login_id == uid2) = false ∧
        ((({ i1 with availability_status := InterpreterAvailability.busy } :
            InterpreterData).login_id == uid2) = false)) := by
    intro x hx
    have hex : x.login_id = uid1 := by simpa using hx
    constructor
    · rw [hex]
      simpa using hne
    · show (i1.login_id == uid2) = false
      rw [hown1]
      simpa using hne
  have c2 : (accept_request db uid1 rid now1).2.requests.find?
      (fun x => x.id == rid) =
      some { req with
             interpreter_id := some i1.id
             status := RequestStatus.accepted
             accepted_at := some now1 } := by
    rw [hok]
    have hidr := List.find?_some hr
    exact find?_updateWhere_self _ hr hidr
  have c4 : (accept_request db uid1 rid now1).2.interpreters.find?
      (fun i => i.login_id == uid2) = some i2 := by
    rw [hok]
    exact (find?_updateWhere_other hq).trans h2
  have c3 : accept_request (accept_request db uid1 rid now1).2 uid2 rid now2 =
      (Except.error ApiError.requestNotPending,
        (accept_request db uid1 rid now1).2) :=
    accept_eq_requestNotPending c4 ha2 c2 (by simp)
  refine ⟨?_, ?_, ?_, ?_, ?_⟩ <;> simp only [acceptTwice]
  · rw [hok]
  · rw [c3]
  · rw [c3]
  · rw [c3]
    exact c2
  · rw [c3]
    exact c4

/-- C2 witness: U1 and U2 race on R1 in the concrete store; serialized as U1
first, U1 gets the request, U2 gets `requestNotPending` with its row intact. -/
theorem accept_race_exactly_one_witness :
    ("U1" : String) ≠ "U2" ∧
    exDB.interpreters.find? (fun i => i.login_id == "U1") = some int1 ∧
    exDB.interpreters.find? (fun i => i.login_id == "U2") = some int2 ∧
    int1.availability_status = InterpreterAvailability.available ∧
    int2.availability_status = InterpreterAvailability.available ∧
    exDB.requests.find? (fun x => x.id == "R1") = some reqA ∧
    reqA.status = RequestStatus.pending ∧
    reqA.language = int1.language ∧
    ((acceptTwice exDB "U1" "U2" "R1" 11 12).1.1 =
      Except.ok { reqA with
                  interpreter_id := some int1.id
                  status := RequestStatus.accepted
                  accepted_at := some 11 } ∧
     (acceptTwice exDB "U1" "U2" "R1" 11 12).1.2 =
      Except.error ApiError.requestNotPending ∧
     (acceptTwice exDB "U1" "U2" "R1" 11 12).2 =
      (accept_request exDB "U1" "R1" 11).2 ∧
     (acceptTwice exDB "U1" "U2" "R1" 11 12).2.requests.find?
       (fun x => x.id == "R1") =
      some { reqA with
             interpreter_id := some int1.id
             status := RequestStatus.accepted
             accepted_at := some 11 } ∧
     (acceptTwice exDB "U1" "U2" "R1" 11 12).2.interpreters.find?
       (fun i => i.login_id == "U2") = some int2) :=
  ⟨by decide, by decide, by decide, by decide, by decide, by decide, by decide,
   by decide,
   accept_race_exactly_one exDB "U1" "U2" "R1" 11 12 int1 int2 reqA
     (by decide) (by decide) (by decide) (by decide) (by decide) (by decide)
     (by decide) (by decide)⟩

/-- C3: the matching-engine operations Create Request, Accept and Complete all
preserve the invariant that a request's `interpreter_id` is non-null exactly
when its status is ACCEPTED or COMPLETED. -/
theorem lifecycle_preserves_invariant (db : DB) (hinv : dbInvariant db) :
    (∀ uid rc newId now, dbInvariant (create_request db uid rc newId now).2) ∧
    (∀ uid rid now, dbInvariant (accept_request db uid rid now).2) ∧
    (∀ uid rid notes now, dbInvariant (complete_request db uid rid notes now).2) := by
  refine ⟨?_, ?_, ?_⟩
  · intro uid rc newId now
    cases hp : db.patients.find? (fun p => p.id == rc.patient_id) with
    | none =>
      rw [create_eq_patientNotFound hp]
      exact hinv
    | some pat =>
      rw [create_eq_ok hp]
      intro r hrr
      rcases List.mem_append.mp hrr with h | h
      · exact hinv r h
      · have hr : r = newRequestRow uid rc newId now := by simpa using h
        rw [hr]
        simp [reqInvariant, newRequestRow]
  · intro uid rid now
    cases hI : db.interpreters.find? (fun i => i.login_id == uid) with
    | none =>
      rw [accept_eq_noInterp hI]
      exact hinv
    | some interp =>
      by_cases hav : interp.availability_status = InterpreterAvailability.available
      · cases hr : db.requests.find? (fun x => x.id == rid) with
        | none =>
          rw [accept_eq_requestNotFound hI hav hr]
          exact hinv
        | some req =>
          by_cases hs : req.status = RequestStatus.pending
          · by_cases hl : req.language = interp.language
            · rw [accept_eq_ok hI hav hr hs hl]
              exact forall_mem_updateWhere hinv
                (fun x hx hpx => by simp [reqInvariant])
            · rw [accept_eq_languageMismatch hI hav hr hs hl]
              exact hinv
          · rw [accept_eq_requestNotPending hI hav hr hs]
            exact hinv
      · rw [accept_eq_notAvailable hI hav]
        exact hinv
  · intro uid rid notes now
    cases hI : db.interpreters.find? (fun i => i.login_id == uid) with
    | none =>
      rw [complete_eq_noInterp hI]
      exact hinv
    | some interp =>
      cases hr : db.requests.find?
          (fun x => x.id == rid && x.interpreter_id == some interp.id) with
      | none =>
        rw [complete_eq_notYourRequest hI hr]
        exact hinv
      | some req =>
        by_cases hs : req.status = RequestStatus.accepted
        · rw [complete_eq_ok hI hr hs]
          have hc := List.find?_some hr
          simp only [Bool.and_eq_true, beq_iff_eq] at hc
          exact forall_mem_updateWhere hinv
            (fun x hx hpx => by simp [reqInvariant, hc.2])
        · rw [complete_eq_requestNotAccepted hI hr hs]
          exact hinv

/-- C3 witness: the concrete store satisfies the invariant and still does
after U1 accepts R1. -/
theorem lifecycle_preserves_invariant_witness :
    dbInvariant exDB ∧ dbInvariant (accept_request exDB "U1" "R1" 5).2 :=
  ⟨by decide, (lifecycle_preserves_invariant exDB (by decide)).2.1 "U1" "R1" 5⟩

/-- C4: after any successful Accept the accepting interpreter's availability
is BUSY, and after any successful Complete the completing interpreter's
availability is AVAILABLE — with no assumption on what the availability was
before the call. -/
theorem availability_after_accept_and_complete (db : DB) (uid rid : String)
    (notes : Option String) (now : Nat) :
    (∀ r db', accept_request db uid rid now = (Except.ok r, db') →
      (db'.interpreters.find? (fun i => i.login_id == uid)).map
        InterpreterData.availability_status = some InterpreterAvailability.busy) ∧
    (∀ r db', complete_request db uid rid notes now = (Except.ok r, db') →
      (db'.interpreters.find? (fun i => i.login_id == uid)).map
        InterpreterData.availability_status = some InterpreterAvailability.available) := by
  constructor
  · intro r db' hok
    cases hI : db.interpreters.find? (fun i => i.login_id == uid) with
    | none => rw [accept_eq_noInterp hI] at hok; simp at hok
    | some interp =>
      obtain ⟨hav, req, hr, hs, hl, hreq, hdb⟩ := accept_ok_inversion hI hok
      subst hdb
      have hlogin := List.find?_some hI
      rw [find?_updateWhere_self
        (fun _ => { interp with availability_status := InterpreterAvailability.busy })
        hI hlogin]
      rfl
  · intro r db' hok
    cases hI : db.interpreters.find? (fun i => i.login_id == uid) with
    | none => rw [complete_eq_noInterp hI] at hok; simp at hok
    | some interp =>
      obtain ⟨req, hr, hs, hreq, hdb⟩ := complete_ok_inversion hI hok
      subst hdb
      have hlogin := List.find?_some hI
      rw [find?_updateWhere_self
        (fun _ => { interp with availability_status := InterpreterAvailability.available })
        hI hlogin]
      rfl

/-- C4 witness: U1 (AVAILABLE) accepting R1 ends BUSY; U3 (BUSY) completing
its accepted request R6 ends AVAILABLE, although it was never AVAILABLE
before the call. -/
theorem availability_after_accept_and_complete_witness :
    accept_request exDB "U1" "R1" 5 = (Except.ok exAcceptedRow, exDBAfterAccept) ∧
    (exDBAfterAccept.interpreters.find? (fun i => i.login_id == "U1")).map
      InterpreterData.availability_status = some InterpreterAvailability.busy ∧
    complete_request exDB "U3" "R6" none 9 = (Except.ok exCompletedRow, exDBAfterComplete) ∧
    (exDBAfterComplete.interpreters.find? (fun i => i.login_id == "U3")).map
      InterpreterData.availability_status = some InterpreterAvailability.available :=
  ⟨by decide,
   (availability_after_accept_and_complete exDB "U1" "R1" none 5).1
     exAcceptedRow exDBAfterAccept (by decide),
   by decide,
   (availability_after_accept_and_complete exDB "U3" "R6" none 9).2
     exCompletedRow exDBAfterComplete (by decide)⟩

/-- C5: Complete fails with `notYourRequest` when no request row with the
given id is assigned to the caller, and with `requestNotAccepted` when the
caller's request is not in ACCEPTED status; both failures return the store
unchanged. -/
theorem complete_failures_leave_state_unchanged (db : DB) (uid rid : String)
    (notes : Option String) (now : Nat) (interp : InterpreterData)
    (hi : db.interpreters.find? (fun i => i.login_id == uid) = some interp) :
    (db.requests.find?
        (fun x => x.id == rid && x.interpreter_id == some interp.id) = none →
      complete_request db uid rid notes now =
        (Except.error ApiError.notYourRequest, db)) ∧
    (∀ req, db.requests.find?
        (fun x => x.id == rid && x.interpreter_id == some interp.id) = some req →
      req.status ≠ RequestStatus.accepted →
      complete_request db uid rid notes now =
        (Except.error ApiError.requestNotAccepted, db)) :=
  ⟨fun hr => complete_eq_notYourRequest hi hr,
   fun _ hr hs => complete_eq_requestNotAccepted hi hr hs⟩

/-- C5 witness: U2 trying to complete R4 — which is assigned to I1 — gets
`notYourRequest` and the store back unchanged. -/
theorem complete_failures_leave_state_unchanged_witness :
    exDB.interpreters.find? (fun i => i.login_id == "U2") = some int2 ∧
    exDB.requests.find?
      (fun x => x.id == "R4" && x.interpreter_id == some int2.id) = none ∧
    complete_request exDB "U2" "R4" none 9 =
      (Except.error ApiError.notYourRequest, exDB) :=
  ⟨by decide, by decide,
   (complete_failures_leave_state_unchanged exDB "U2" "R4" none 9 int2
     (by decide)).1 (by decide)⟩

/-- C7: for every store and language the pending queue is a permutation of the
PENDING requests of that language, sorted STAT-first then oldest-first; on the
spec's example (R1 not STAT at 10:00, R2 STAT at 10:05, R3 not STAT at 09:50,
all Arabic) the queue is [R2, R3, R1]. -/
theorem listPending_spec :
    (∀ db lang, (listPending db lang).Perm
      (db.requests.filter fun r =>
        r.language == lang && r.status == RequestStatus.pending)) ∧
    (∀ db lang, List.Sorted pendingBefore (listPending db lang)) ∧
    listPending exDB "Arabic" = [reqB, reqC, reqA] := by
  refine ⟨fun db lang => List.perm_insertionSort _ _,
    fun db lang => List.sorted_insertionSort _ _, by decide⟩

/-- C8: creating a request for a nonexistent patient fails with
`patientNotFound` and persists nothing; for an existing patient it appends
exactly one new request row, PENDING, unassigned, stamped with the creation
time. -/
theorem create_request_spec (db : DB) (uid : String) (rc : RequestCreate)
    (newId : String) (now : Nat) :
    (db.patients.find? (fun p => p.id == rc.patient_id) = none →
      create_request db uid rc newId now =
        (Except.error ApiError.patientNotFound, db)) ∧
    (∀ pat, db.patients.find? (fun p => p.id == rc.patient_id) = some pat →
      create_request db uid rc newId now =
        (Except.ok (newRequestRow uid rc newId now),
         { db with requests := db.requests ++ [newRequestRow uid rc newId now] }) ∧
      (newRequestRow uid rc newId now).status = RequestStatus.pending ∧
      (newRequestRow uid rc newId now).interpreter_id = none ∧
      (newRequestRow uid rc newId now).requested_at = now) :=
  ⟨fun hp => create_eq_patientNotFound hp,
   fun _ hp => ⟨create_eq_ok hp, rfl, rfl, rfl⟩⟩

/-- C8 witness: creating a request for the nonexistent patient id NOPE on the
concrete store fails with `patientNotFound` and returns the store unchanged. -/
theorem create_request_spec_witness :
    exDB.patients.find? (fun p => p.id == rcBad.patient_id) = none ∧
    create_request exDB "S1" rcBad "R9" 7 =
      (Except.error ApiError.patientNotFound, exDB) :=
  ⟨by decide, (create_request_spec exDB "S1" rcBad "R9" 7).1 (by decide)⟩

/-- C9: the patient sync is idempotent on the FHIR id as natural key — if a
local row with that `fhir_id` exists, sync returns it and leaves the store
untouched; and rerunning a successful sync (under the FHIR contract that
resolving an id returns a resource with that id) changes nothing and returns
the same row. -/
theorem sync_patient_idempotent (db : DB) (fhirId : String)
    (fhirGet : String → Option FhirPatient) (newId newId2 : String)
    (hres : ∀ fp, fhirGet fhirId = some fp → fp.id = fhirId) :
    (∀ p, db.patients.find? (fun q => q.fhir_id == fhirId) = some p →
      sync_patient_from_fhir db fhirId fhirGet newId = (Except.ok p, db)) ∧
    (∀ q db', sync_patient_from_fhir db fhirId fhirGet newId = (Except.ok q, db') →
      sync_patient_from_fhir db' fhirId fhirGet newId2 = (Except.ok q, db')) := by
  constructor
  · exact fun p hp => sync_eq_existing hp
  · intro q db' hok
    cases hfind : db.patients.find? (fun x => x.fhir_id == fhirId) with
    | some p =>
      rw [sync_eq_existing hfind] at hok
      simp only [Prod.mk.injEq, Except.ok.injEq] at hok
      obtain ⟨h1, h2⟩ := hok
      rw [← h2, ← h1]
      exact sync_eq_existing hfind
    | none =>
      cases hg : fhirGet fhirId with
      | none => rw [sync_eq_fhirMissing hfind hg] at hok; simp at hok
      | some fp =>
        rw [sync_eq_created hfind hg] at hok
        simp only [Prod.mk.injEq, Except.ok.injEq] at hok
        obtain ⟨h1, h2⟩ := hok
        rw [← h2, ← h1]
        apply sync_eq_existing
        rw [List.find?_append, hfind]
        have hfp : fp.id = fhirId := hres fp hg
        simp [parse_patient_resource, hfp]

/-- C9 witness: pat1 is already cached under FHIR id F1, so syncing F1 again —
even against a FHIR server that knows no patients — returns pat1 and the
unchanged store. -/
theorem sync_patient_idempotent_witness :
    (∀ fp, noFhirServer "F1" = some fp → fp.id = "F1") ∧
    exDB.patients.find? (fun q => q.fhir_id == "F1") = some pat1 ∧
    sync_patient_from_fhir exDB "F1" noFhirServer "NEWID" = (Except.ok pat1, exDB) :=
  ⟨fun fp h => by simp [noFhirServer] at h,
   by decide,
   (sync_patient_idempotent exDB "F1" noFhirServer "NEWID" "NEWID2"
     (fun fp h => by simp [noFhirServer] at h)).1 pat1 (by decide)⟩

end FHIRProject
